import Mathlib

/-!
Shallow embedding of the recommendation engine of `app_full.py`
(SQLite-backed learning-content recommender).

Conventions of the embedding:
* SQL rows become Lean structures; the TEXT columns holding
  comma-separated lists (`interests`, `tags`) are modelled directly as
  `List String` (the split/join round trip is serialization glue).
* Python floats become `ℚ` (exact arithmetic; all constants in the
  source are decimal literals).
* Timestamps are modelled at day resolution as integers, since the only
  arithmetic on them is `(now - created_at).days`.
* `random.uniform(0, 0.1)` (the exploration jitter) is modelled as an
  explicit per-candidate parameter `jitter : String → ℚ` keyed by
  content id (content ids are primary keys, hence distinct).
* Python `set` iteration order is unspecified; where the source turns a
  set into a list (`list(set(a) & set(b))[:2]`) we fix one deterministic
  enumeration of the same set (first occurrences in the source list).
  Likewise SQLite's unspecified-but-fixed tie order in
  `ORDER BY common_items DESC` is modelled by one deterministic
  enumeration (first appearance in the events table).
-/

namespace AppFull

/-- A row of the `users` table (the columns the engine reads). -/
structure User where
  user_id : String
  name : String
  skill_level : String
  interests : List String
  last_active : Option Int
deriving DecidableEq, Repr

/-- A row of the `content` table (the columns the engine reads). -/
structure Content where
  content_id : String
  title : String
  content_type : String
  difficulty : String
  tags : List String
  popularity_score : ℚ
  created_at : Int
deriving DecidableEq, Repr

/-- A row of the `events` table. -/
structure Event where
  event_id : String
  user_id : String
  content_id : String
  event_type : String
  value : Option ℚ
  session_id : Option String
  timestamp : Int
deriving DecidableEq, Repr

/-- A row of the `recommendation_logs` table (the columns the engine writes). -/
structure RecommendationLogEntry where
  log_id : String
  user_id : String
  content_id : String
  score : ℚ
  model_version : String
  reason_tags : List String
deriving DecidableEq, Repr

/-- The SQLite database state the engine touches. -/
structure Store where
  users : List User
  contents : List Content
  events : List Event
deriving DecidableEq, Repr

/-- Request body of `POST /events` (pydantic model `EventCreate`). -/
structure EventCreate where
  user_id : String
  content_id : String
  event_type : String
  value : Option ℚ
  session_id : Option String
deriving DecidableEq, Repr

/-- One entry of the `recommendations` list returned by `GET /recommend`. -/
structure ScoredRec where
  content_id : String
  title : String
  score : ℚ
  reason_tags : List String
  difficulty : String
  content_type : String
deriving DecidableEq, Repr

/-- `SELECT * FROM users WHERE user_id = ?`. -/
def findUser (users : List User) (uid : String) : Option User :=
  users.find? (fun u => u.user_id == uid)

/-- `SELECT * FROM content WHERE content_id = ?`. -/
def findContent (cs : List Content) (cid : String) : Option Content :=
  cs.find? (fun c => c.content_id == cid)

/-- `tag_overlap = len(set(user_interests) & set(content_tags))`. -/
def tagOverlap (interests tags : List String) : ℕ :=
  (interests.toFinset ∩ tags.toFinset).card

/-- `list(set(user_interests) & set(content_tags))[:2]` — the first two
elements of the intersection, under the fixed enumeration described in the
module docstring (Python's set order is unspecified). -/
def overlapTagList (interests tags : List String) : List String :=
  (interests.dedup.filter (fun t => tags.contains t)).take 2

/-- The `difficulty_match` nested-dict lookup
`difficulty_match.get(user_skill, {}).get(content['difficulty'], 0.5)`:
unknown skill level or unknown difficulty falls back to `0.5`. -/
def difficultyMatch (skill difficulty : String) : ℚ :=
  if skill == "novice" then
    if difficulty == "beginner" then 1
    else if difficulty == "intermediate" then 1/2
    else if difficulty == "advanced" then 1/5
    else 1/2
  else if skill == "intermediate" then
    if difficulty == "beginner" then 1/2
    else if difficulty == "intermediate" then 1
    else if difficulty == "advanced" then 7/10
    else 1/2
  else if skill == "expert" then
    if difficulty == "beginner" then 3/10
    else if difficulty == "intermediate" then 7/10
    else if difficulty == "advanced" then 1
    else 1/2
  else 1/2

/-- The per-peer `COUNT(*)` of the self-join
`events e1 JOIN events e2 ON e1.content_id = e2.content_id
WHERE e1.user_id = uid AND e2.user_id = other`:
the number of event pairs of `uid` and `other` on the same content. -/
def sharedCount (events : List Event) (uid other : String) : ℕ :=
  ((events.filter (fun e1 => e1.user_id == uid)).map (fun e1 =>
    (events.filter (fun e2 =>
      e2.user_id == other && e2.content_id == e1.content_id)).length)).sum

/-- The similar-users query: group the self-join by `e2.user_id`
(users other than `uid` with at least one shared-content event pair),
`ORDER BY common_items DESC LIMIT 10`. Ties keep the fixed enumeration
order of the grouped keys (SQLite's tie order is unspecified but fixed
for a given database state; `mergeSort` is stable). -/
def similarUsers (events : List Event) (uid : String) : List String :=
  (((((events.filter (fun e => e.user_id != uid)).map
    (fun e => e.user_id)).dedup).filter
      (fun u => decide (0 < sharedCount events uid u))).mergeSort
    (fun a b =>
      decide (sharedCount events uid b ≤ sharedCount events uid a))).take 10

/-- The per-candidate peer check: does any of the similar users have a
`like` or `complete` event on this content (the Python loop breaks on the
first match; `any` short-circuits identically). -/
def peerLikedOrCompleted (events : List Event) (peers : List String)
    (cid : String) : Bool :=
  peers.any (fun p => events.any (fun e =>
    e.user_id == p && e.content_id == cid &&
      (e.event_type == "like" || e.event_type == "complete")))

/-- `strategy in ["collaborative", "hybrid"]`. -/
def collaborativeOn (strategy : String) : Bool :=
  strategy == "collaborative" || strategy == "hybrid"

/-- Whether the flat `+0.2` collaborative bonus fires for content `cid`:
the strategy gate and the peer check together. -/
def peerBonusApplies (events : List Event) (uid : String) (strategy : String)
    (cid : String) : Bool :=
  collaborativeOn strategy &&
    peerLikedOrCompleted events (similarUsers events uid) cid

/-- The `if tag_overlap > 0: score += tag_overlap * 0.3` contribution. -/
def tagContribution (interests tags : List String) : ℚ :=
  if 0 < tagOverlap interests tags
  then (tagOverlap interests tags : ℚ) * (3/10)
  else 0

/-- `recency_factor = max(0.5, 1.0 - (days_old / 365))`. -/
def recencyFactor (daysOld : Int) : ℚ :=
  max (1/2 : ℚ) (1 - (daysOld : ℚ) / 365)

/-- The additive running total before the recency decay: tag overlap,
difficulty match (weight 0.2), popularity (weight 0.15), and the gated
flat 0.2 peer bonus. -/
def preDecayScore (uid : String) (interests : List String) (skill : String)
    (events : List Event) (strategy : String) (c : Content) : ℚ :=
  tagContribution interests c.tags
    + difficultyMatch skill c.difficulty * (1/5)
    + c.popularity_score * (3/20)
    + (if peerBonusApplies events uid strategy c.content_id then 1/5 else 0)

/-- The score after `score *= recency_factor`, before the exploration
jitter: `days_old = now - created_at`. -/
def preJitterScore (uid : String) (interests : List String) (skill : String)
    (events : List Event) (strategy : String) (now : Int) (c : Content) : ℚ :=
  preDecayScore uid interests skill events strategy c
    * recencyFactor (now - c.created_at)

/-- The reason tags produced by the signals, in discovery order: up to two
overlap tags (only when `tag_overlap > 0`), then the peer-affinity tag. -/
def signalTags (uid : String) (interests : List String) (events : List Event)
    (strategy : String) (c : Content) : List String :=
  (if 0 < tagOverlap interests c.tags
   then overlapTagList interests c.tags else [])
  ++ (if peerBonusApplies events uid strategy c.content_id
      then ["popular_with_similar_users"] else [])

/-- `if not reason_tags: reason_tags = ["recommended_for_you"]` followed by
the `reason_tags[:3]` truncation in the response dict. -/
def reasonTags (uid : String) (interests : List String) (events : List Event)
    (strategy : String) (c : Content) : List String :=
  (if (signalTags uid interests events strategy c).isEmpty
   then ["recommended_for_you"]
   else signalTags uid interests events strategy c).take 3

/-- Score one candidate content item: the whole per-content loop body of
`get_recommendations`, with the jitter draw passed in explicitly. The
final score is `min(score, 1.0)`. -/
def scoreContent (uid : String) (interests : List String) (skill : String)
    (events : List Event) (strategy : String) (now : Int)
    (jitter : String → ℚ) (c : Content) : ScoredRec :=
  { content_id := c.content_id
    title := c.title
    score := min (preJitterScore uid interests skill events strategy now c
      + jitter c.content_id) 1
    reason_tags := reasonTags uid interests events strategy c
    difficulty := c.difficulty
    content_type := c.content_type }

/-- `content_id in user_history and 'complete' in user_history[content_id]`:
the user's grouped history holds a `complete` event for this content. -/
def userCompleted (events : List Event) (uid cid : String) : Bool :=
  events.any (fun e =>
    e.user_id == uid && e.content_id == cid && e.event_type == "complete")

/-- The candidates that survive the `continue` (all content minus the
already-completed items). -/
def eligibleContents (s : Store) (uid : String) : List Content :=
  s.contents.filter (fun c => !(userCompleted s.events uid c.content_id))

/-- The full scored candidate list, in content-table enumeration order. -/
def scoredCandidates (s : Store) (uid : String) (interests : List String)
    (skill : String) (strategy : String) (now : Int)
    (jitter : String → ℚ) : List ScoredRec :=
  (eligibleContents s uid).map
    (scoreContent uid interests skill s.events strategy now jitter)

/-- The comparison of `recommendations.sort(key=score, reverse=True)`. -/
def scoreDesc (a b : ScoredRec) : Bool :=
  decide (b.score ≤ a.score)

/-- The sorted candidate list (Python's sort is stable; so is `mergeSort`). -/
def rankedCandidates (s : Store) (uid : String) (interests : List String)
    (skill : String) (strategy : String) (now : Int)
    (jitter : String → ℚ) : List ScoredRec :=
  (scoredCandidates s uid interests skill strategy now jitter).mergeSort
    scoreDesc

/-- `GET /recommend/{user_id}`: 404 when the user row is missing, else the
top-`k` of the ranked candidates. -/
def getRecommendations (s : Store) (uid : String) (k : ℕ) (strategy : String)
    (now : Int) (jitter : String → ℚ) : Except String (List ScoredRec) :=
  match findUser s.users uid with
  | none => .error "User not found"
  | some user =>
    .ok ((rankedCandidates s uid user.interests user.skill_level strategy now
      jitter).take k)

/-- The `recommendation_logs` rows written for the served list: one entry
per returned recommendation, same score, model version `"v2.0.0"`. -/
def logEntriesFor (uid : String) (logIds : ℕ → String)
    (recs : List ScoredRec) : List RecommendationLogEntry :=
  recs.enum.map (fun p =>
    { log_id := logIds p.1
      user_id := uid
      content_id := p.2.content_id
      score := p.2.score
      model_version := "v2.0.0"
      reason_tags := p.2.reason_tags })

/-- `SELECT COUNT(*) FROM events WHERE content_id = ?`. -/
def eventCount (events : List Event) (cid : String) : ℕ :=
  (events.filter (fun e => e.content_id == cid)).length

/-- The popularity recompute `UPDATE content SET popularity_score =
(SELECT COUNT(*) * 0.01 FROM events WHERE content_id = ?) WHERE
content_id = ?`, run against the post-insert events table. -/
def recomputePopularity (cs : List Content) (events : List Event)
    (cid : String) : List Content :=
  cs.map (fun c =>
    if c.content_id == cid
    then { c with popularity_score := (eventCount events cid : ℚ) * (1/100) }
    else c)

/-- `UPDATE users SET last_active = ? WHERE user_id = ?`. -/
def touchLastActive (users : List User) (uid : String) (ts : Int) :
    List User :=
  users.map (fun u =>
    if u.user_id == uid then { u with last_active := some ts } else u)

/-- `POST /events` (`log_event`): verify both foreign keys, then insert the
event row, touch `last_active`, and recompute the content's popularity.
Returns the unchanged store beside the 404 error when a check fails
(the handler raises before any write). -/
def logEvent (s : Store) (ev : EventCreate) (eid : String) (ts : Int) :
    Store × Except String String :=
  if (findUser s.users ev.user_id).isNone then
    (s, .error "User not found")
  else if (findContent s.contents ev.content_id).isNone then
    (s, .error "Content not found")
  else
    let newEvent : Event :=
      { event_id := eid
        user_id := ev.user_id
        content_id := ev.content_id
        event_type := ev.event_type
        value := ev.value
        session_id := ev.session_id
        timestamp := ts }
    let updatedEvents := s.events ++ [newEvent]
    ({ users := touchLastActive s.users ev.user_id ts
       contents := recomputePopularity s.contents updatedEvents ev.content_id
       events := updatedEvents },
     .ok eid)

/-- Popularity of a content id in a store (0 when the row is missing),
for stating the popularity invariants. -/
def popularityOf (s : Store) (cid : String) : ℚ :=
  ((findContent s.contents cid).map (fun c => c.popularity_score)).getD 0

/-! Concrete fixtures used to instantiate the theorems. -/

/-- A novice user interested in python. -/
def wUser : User :=
  { user_id := "u1", name := "Asha", skill_level := "novice",
    interests := ["python"], last_active := none }

/-- A beginner python content item created at day 0. -/
def wContent : Content :=
  { content_id := "c1", title := "Intro to Python", content_type := "video",
    difficulty := "beginner", tags := ["python"],
    popularity_score := 1/2, created_at := 0 }

/-- A one-user, one-content, zero-event store. -/
def wStore : Store :=
  { users := [wUser], contents := [wContent], events := [] }

/-- A content item created 1000 days before day 0. -/
def wOldContent : Content :=
  { content_id := "c9", title := "Old course", content_type := "course",
    difficulty := "advanced", tags := ["cobol"],
    popularity_score := 1/2, created_at := -1000 }

/-- The content of the spec's §8 scoring scenario: tags python and ai,
beginner difficulty, popularity 0.4, created today. -/
def scenarioContent : Content :=
  { content_id := "sc1", title := "Scenario", content_type := "article",
    difficulty := "beginner", tags := ["python", "ai"],
    popularity_score := 2/5, created_at := 0 }

/-- The single recommendation the fixture store serves. -/
def wRec : ScoredRec :=
  scoreContent "u1" ["python"] "novice" [] "hybrid" 0 (fun _ => 0) wContent

/-- An event-ingestion request referencing a missing user id. -/
def wBadEvent : EventCreate :=
  { user_id := "ghost", content_id := "c1", event_type := "view",
    value := none, session_id := none }

/-- A well-formed event-ingestion request for the fixture store. -/
def wGoodEvent : EventCreate :=
  { user_id := "u1", content_id := "c1", event_type := "view",
    value := none, session_id := none }

end AppFull

namespace AppFull

/-! Helper lemmas shared by the claim theorems. -/

/-- Every entry of the difficulty lookup table is non-negative. -/
theorem difficultyMatch_nonneg (skill difficulty : String) :
    0 ≤ difficultyMatch skill difficulty := by
  unfold difficultyMatch
  split_ifs <;> norm_num

/-- The tag-overlap contribution is non-negative. -/
theorem tagContribution_nonneg (interests tags : List String) :
    0 ≤ tagContribution interests tags := by
  unfold tagContribution
  split_ifs with h
  · positivity
  · exact le_refl 0

/-- The recency factor is at least one half. -/
theorem recencyFactor_ge_half (d : Int) : (1/2 : ℚ) ≤ recencyFactor d :=
  le_max_left _ _

/-- The recency factor is non-negative. -/
theorem recencyFactor_nonneg (d : Int) : 0 ≤ recencyFactor d :=
  le_trans (by norm_num) (recencyFactor_ge_half d)

/-- With a non-negative popularity score, the pre-decay running total is
non-negative (all four contributions are). -/
theorem preDecayScore_nonneg (uid : String) (interests : List String)
    (skill : String) (events : List Event) (strategy : String) (c : Content)
    (hpop : 0 ≤ c.popularity_score) :
    0 ≤ preDecayScore uid interests skill events strategy c := by
  unfold preDecayScore
  have h1 := tagContribution_nonneg interests c.tags
  have h2 := difficultyMatch_nonneg skill c.difficulty
  have h3 : (0:ℚ) ≤ c.popularity_score * (3/20) := by positivity
  split_ifs <;> nlinarith

/-- With a non-negative popularity score, the pre-jitter score is
non-negative. -/
theorem preJitterScore_nonneg (uid : String) (interests : List String)
    (skill : String) (events : List Event) (strategy : String) (now : Int)
    (c : Content) (hpop : 0 ≤ c.popularity_score) :
    0 ≤ preJitterScore uid interests skill events strategy now c :=
  mul_nonneg
    (preDecayScore_nonneg uid interests skill events strategy c hpop)
    (recencyFactor_nonneg _)

/-- One candidate's final score lies in `[0, 1]` when its popularity score
and its jitter draw are non-negative. -/
theorem scoreContent_score_bounds (uid : String) (interests : List String)
    (skill : String) (events : List Event) (strategy : String) (now : Int)
    (jitter : String → ℚ) (c : Content) (hpop : 0 ≤ c.popularity_score)
    (hj : 0 ≤ jitter c.content_id) :
    0 ≤ (scoreContent uid interests skill events strategy now jitter c).score
    ∧ (scoreContent uid interests skill events strategy now jitter c).score
        ≤ 1 := by
  unfold scoreContent
  constructor
  · exact le_min
      (add_nonneg
        (preJitterScore_nonneg uid interests skill events strategy now c hpop)
        hj)
      zero_le_one
  · exact min_le_right _ _

/-- Membership in the served list factors through an eligible content row. -/
theorem mem_scoredCandidates (s : Store) (uid : String)
    (interests : List String) (skill : String) (strategy : String)
    (now : Int) (jitter : String → ℚ) (r : ScoredRec)
    (hr : r ∈ scoredCandidates s uid interests skill strategy now jitter) :
    ∃ c ∈ s.contents, userCompleted s.events uid c.content_id = false ∧
      r = scoreContent uid interests skill s.events strategy now jitter c := by
  unfold scoredCandidates eligibleContents at hr
  obtain ⟨c, hc, rfl⟩ := List.mem_map.mp hr
  obtain ⟨hmem, hpred⟩ := List.mem_filter.mp hc
  refine ⟨c, hmem, ?_, rfl⟩
  simpa using hpred

/-- With no events of the query user, every shared-interaction count is 0. -/
theorem sharedCount_eq_zero (events : List Event) (uid : String)
    (h : events.filter (fun e => e.user_id == uid) = []) (other : String) :
    sharedCount events uid other = 0 := by
  unfold sharedCount
  rw [h]
  rfl

/-- With no events of the query user, the similar-users query returns no
rows. -/
theorem similarUsers_eq_nil (events : List Event) (uid : String)
    (h : events.filter (fun e => e.user_id == uid) = []) :
    similarUsers events uid = [] := by
  unfold similarUsers
  have hs := sharedCount_eq_zero events uid h
  simp [hs]

end AppFull

namespace AppFull

/-- C3 counterexample: no fixed input-independent cap `N` makes the
tag-overlap contribution equal `min(overlap_count, N) * 0.3` for every
user/content pair: for any candidate cap a pair with `N + 1` common tags
exceeds it (the code multiplies the raw overlap count, uncapped). -/
theorem tagContribution_no_fixed_cap :
    ¬ ∃ N : ℕ, ∀ interests tags : List String,
      tagContribution interests tags
        = ((min (tagOverlap interests tags) N : ℕ) : ℚ) * (3/10) := by
  rintro ⟨N, hN⟩
  have hinj : Function.Injective
      (fun n => String.mk (List.replicate n 'a')) := by
    intro a b h
    have hdata : List.replicate a 'a' = List.replicate b 'a' :=
      congrArg String.data h
    have := congrArg List.length hdata
    simpa using this
  have hnd : ((List.range (N+1)).map
      (fun n => String.mk (List.replicate n 'a'))).Nodup :=
    (List.nodup_range _).map hinj
  have hov : tagOverlap
      ((List.range (N+1)).map (fun n => String.mk (List.replicate n 'a')))
      ((List.range (N+1)).map (fun n => String.mk (List.replicate n 'a')))
      = N + 1 := by
    unfold tagOverlap
    rw [Finset.inter_self, List.toFinset_card_of_nodup hnd,
      List.length_map, List.length_range]
  have heq := hN
    ((List.range (N+1)).map (fun n => String.mk (List.replicate n 'a')))
    ((List.range (N+1)).map (fun n => String.mk (List.replicate n 'a')))
  rw [tagContribution, hov, if_pos (Nat.succ_pos N),
    min_eq_right (Nat.le_succ N)] at heq
  have hc := mul_right_cancel₀ (by norm_num : (3/10 : ℚ) ≠ 0) heq
  have hfalse : (N : ℚ) + 1 = (N : ℚ) := by push_cast at hc ⊢; linarith
  linarith

/-- C3 (amended): the tag-overlap contribution is exactly
`overlap_count * 0.3`, with no cap. -/
theorem tagContribution_eq_overlap_mul :
    ∀ interests tags : List String,
      tagContribution interests tags
        = ((tagOverlap interests tags : ℕ) : ℚ) * (3/10) := by
  intro interests tags
  unfold tagContribution
  split_ifs with h
  · rfl
  · have h0 : tagOverlap interests tags = 0 := by omega
    rw [h0]
    norm_num

/-- C4: the recency decay multiplies the sum of contributions 1–4 by
`recency_factor = max(0.5, 1 - days_old/365)`, the factor is at least one
half, and hence (for a non-negative pre-decay total) the pre-jitter score
is never below 50% of the pre-decay score, regardless of content age. -/
theorem recency_decay_halves_at_most (uid : String) (interests : List String)
    (skill : String) (events : List Event) (strategy : String) (now : Int)
    (c : Content) :
    preJitterScore uid interests skill events strategy now c
      = preDecayScore uid interests skill events strategy c
        * recencyFactor (now - c.created_at)
    ∧ (1/2 : ℚ) ≤ recencyFactor (now - c.created_at)
    ∧ (0 ≤ preDecayScore uid interests skill events strategy c →
        preDecayScore uid interests skill events strategy c * (1/2)
          ≤ preJitterScore uid interests skill events strategy now c) := by
  refine ⟨rfl, recencyFactor_ge_half _, ?_⟩
  intro hpre
  unfold preJitterScore
  exact mul_le_mul_of_nonneg_left (recencyFactor_ge_half _) hpre

/-- C4 witness: instantiated on a content item 1000 days old. -/
theorem recency_decay_halves_at_most_witness :
    preDecayScore "u1" ["python"] "novice" [] "hybrid" wOldContent * (1/2)
      ≤ preJitterScore "u1" ["python"] "novice" [] "hybrid" 0 wOldContent :=
  (recency_decay_halves_at_most "u1" ["python"] "novice" [] "hybrid" 0
    wOldContent).2.2
    (preDecayScore_nonneg "u1" ["python"] "novice" [] "hybrid" wOldContent
      (by norm_num [wOldContent]))

/-- C8: the reason tags of every served recommendation are exactly the
`reasonTags` of the engine; they are never empty, hold at most three
entries, collapse to the single fallback tag `"recommended_for_you"` when
no signal produced a tag, and otherwise are the signal tags in discovery
order (overlap tags first, peer tag after) truncated to three. -/
theorem reason_tags_shape (uid : String) (interests : List String)
    (skill : String) (events : List Event) (strategy : String) (now : Int)
    (jitter : String → ℚ) (c : Content) :
    (scoreContent uid interests skill events strategy now jitter c).reason_tags
      = reasonTags uid interests events strategy c
    ∧ reasonTags uid interests events strategy c ≠ []
    ∧ (reasonTags uid interests events strategy c).length ≤ 3
    ∧ (signalTags uid interests events strategy c = [] →
        reasonTags uid interests events strategy c = ["recommended_for_you"])
    ∧ (signalTags uid interests events strategy c ≠ [] →
        reasonTags uid interests events strategy c
          = (signalTags uid interests events strategy c).take 3) := by
  refine ⟨rfl, ?_, ?_, ?_, ?_⟩
  · unfold reasonTags
    rcases h : (signalTags uid interests events strategy c).isEmpty with _ | _
    · rw [if_neg (by simp [h])]
      have hne := List.isEmpty_eq_false_iff_exists_mem.mp h
      obtain ⟨a, ha⟩ := hne
      cases hlist : signalTags uid interests events strategy c with
      | nil => rw [hlist] at ha; cases ha
      | cons b t => simp
    · rw [if_pos (by simp [h])]
      simp
  · unfold reasonTags
    split_ifs <;> exact List.length_take_le _ _
  · intro h
    unfold reasonTags
    rw [if_pos (by simp [h])]
    rfl
  · intro h
    unfold reasonTags
    rw [if_neg (by simpa using h)]

unseal List.merge List.mergeSort in
/-- C8 witness: on the fixture store's user and content (one overlapping
tag, no peers) the reason tags are the single overlap tag. -/
theorem reason_tags_shape_witness :
    (scoreContent "u1" ["python"] "novice" [] "hybrid" 0 (fun _ => 0)
      wContent).reason_tags = ["python"] := by
  have h := (reason_tags_shape "u1" ["python"] "novice" [] "hybrid" 0
    (fun _ => 0) wContent).2.2.2.2
  rw [(reason_tags_shape "u1" ["python"] "novice" [] "hybrid" 0
    (fun _ => 0) wContent).1]
  rw [h (by decide)]
  decide

end AppFull

namespace AppFull

/-- The spec's §8 scenario evaluates, before the jitter, to 0.56
(= 0.3 tag overlap + 0.2 difficulty + 0.06 popularity, recency factor 1),
not to the 0.36 the spec computes. -/
theorem scenario_preJitter :
    preJitterScore "u1" ["python", "cloud"] "novice" [] "content_based" 0
      scenarioContent = 14/25 := by
  have hov : tagOverlap ["python", "cloud"] ["python", "ai"] = 1 := by decide
  have hpb : peerBonusApplies [] "u1" "content_based" "sc1" = false := by
    unfold peerBonusApplies collaborativeOn
    decide
  simp only [preJitterScore, preDecayScore, tagContribution, recencyFactor,
    scenarioContent, hov, hpb, difficultyMatch]
  norm_num

/-- C2 counterexample: on the spec's exact scenario (interests
python and cloud, tags python and ai, novice and beginner, popularity 0.4,
created today, strategy content_based) with jitter draw 0 — a legal draw,
`0 ∈ [0, 0.1)` — the final score is 0.56, which is not in [0.36, 0.46]. -/
theorem scenario_score_counterexample :
    ((0:ℚ) ≤ 0 ∧ (0:ℚ) < 1/10)
    ∧ (scoreContent "u1" ["python", "cloud"] "novice" [] "content_based" 0
        (fun _ => 0) scenarioContent).score = 14/25
    ∧ ¬((9/25 : ℚ) ≤ (scoreContent "u1" ["python", "cloud"] "novice" []
            "content_based" 0 (fun _ => 0) scenarioContent).score
        ∧ (scoreContent "u1" ["python", "cloud"] "novice" [] "content_based"
            0 (fun _ => 0) scenarioContent).score ≤ 23/50) := by
  have hsc : (scoreContent "u1" ["python", "cloud"] "novice" []
      "content_based" 0 (fun _ => 0) scenarioContent).score = 14/25 := by
    simp only [scoreContent, scenario_preJitter]
    norm_num
  refine ⟨⟨le_refl 0, by norm_num⟩, hsc, ?_⟩
  rw [hsc]
  norm_num

/-- C2 (amended): on the spec's scenario the pre-jitter total is 0.56, so
for every legal jitter draw `j ∈ [0, 0.1)` the final score is
`0.56 + j ∈ [0.56, 0.66)` (the clamp at 1.0 does not bind). -/
theorem scenario_score_amended (j : ℚ) (h0 : 0 ≤ j) (h1 : j < 1/10) :
    (scoreContent "u1" ["python", "cloud"] "novice" [] "content_based" 0
      (fun _ => j) scenarioContent).score = 14/25 + j
    ∧ (14/25 : ℚ) ≤ (scoreContent "u1" ["python", "cloud"] "novice" []
        "content_based" 0 (fun _ => j) scenarioContent).score
    ∧ (scoreContent "u1" ["python", "cloud"] "novice" [] "content_based" 0
        (fun _ => j) scenarioContent).score < 33/50 := by
  have hsc : (scoreContent "u1" ["python", "cloud"] "novice" []
      "content_based" 0 (fun _ => j) scenarioContent).score = 14/25 + j := by
    simp only [scoreContent, scenario_preJitter]
    rw [min_eq_left (by linarith)]
  refine ⟨hsc, ?_, ?_⟩ <;> rw [hsc] <;> linarith

/-- C2 witness: the amended bounds at the concrete jitter draw 0. -/
theorem scenario_score_amended_witness :
    (scoreContent "u1" ["python", "cloud"] "novice" [] "content_based" 0
      (fun _ => (0:ℚ)) scenarioContent).score = 14/25 + 0
    ∧ (14/25 : ℚ) ≤ (scoreContent "u1" ["python", "cloud"] "novice" []
        "content_based" 0 (fun _ => (0:ℚ)) scenarioContent).score
    ∧ (scoreContent "u1" ["python", "cloud"] "novice" [] "content_based" 0
        (fun _ => (0:ℚ)) scenarioContent).score < 33/50 :=
  scenario_score_amended 0 (le_refl 0) (by norm_num)

/-- C9: the similar-users query returns at most 10 users, never the query
user itself, nothing when the query user has no events, and its output is
ordered by shared-interaction count descending (ties resolved by the fixed
deterministic enumeration, so the result is a function of the data). -/
theorem similar_users_contract (events : List Event) (uid : String) :
    (similarUsers events uid).length ≤ 10
    ∧ uid ∉ similarUsers events uid
    ∧ (events.filter (fun e => e.user_id == uid) = [] →
        similarUsers events uid = [])
    ∧ (similarUsers events uid).Pairwise
        (fun a b => sharedCount events uid b ≤ sharedCount events uid a) := by
  refine ⟨?_, ?_, similarUsers_eq_nil events uid, ?_⟩
  · unfold similarUsers
    exact List.length_take_le _ _
  · intro hmem
    unfold similarUsers at hmem
    have h1 := List.mem_of_mem_take hmem
    rw [List.mem_mergeSort] at h1
    have h2 := (List.mem_filter.mp h1).1
    rw [List.mem_dedup] at h2
    obtain ⟨e, he, heq⟩ := List.mem_map.mp h2
    have hne := (List.mem_filter.mp he).2
    rw [heq] at hne
    simp at hne
  · have htrans : ∀ a b c : String,
        decide (sharedCount events uid b ≤ sharedCount events uid a) = true →
        decide (sharedCount events uid c ≤ sharedCount events uid b) = true →
        decide (sharedCount events uid c ≤ sharedCount events uid a)
          = true := by
      intro a b c h1 h2
      simp only [decide_eq_true_eq] at h1 h2 ⊢
      omega
    have htotal : ∀ a b : String,
        (decide (sharedCount events uid b ≤ sharedCount events uid a)
          || decide (sharedCount events uid a ≤ sharedCount events uid b))
          = true := by
      intro a b
      simp only [Bool.or_eq_true, decide_eq_true_eq]
      omega
    have hs : (List.mergeSort
        ((((events.filter (fun e => e.user_id != uid)).map
          (fun e => e.user_id)).dedup).filter
            (fun u => decide (0 < sharedCount events uid u)))
        (fun a b =>
          decide (sharedCount events uid b ≤ sharedCount events uid a))).Pairwise
        (fun a b =>
          decide (sharedCount events uid b ≤ sharedCount events uid a)
            = true) :=
      List.sorted_mergeSort htrans htotal _
    unfold similarUsers
    exact (List.Pairwise.sublist (List.take_sublist _ _) hs).imp
      (fun h => of_decide_eq_true h)

/-- C9 witness: a user with no events gets the empty peer list. -/
theorem similar_users_contract_witness :
    similarUsers [] "u1" = [] :=
  (similar_users_contract [] "u1").2.2.1 rfl

end AppFull

namespace AppFull

/-- With an empty peer list every peer bonus check is false. -/
theorem peerBonusApplies_eq_false (events : List Event) (uid : String)
    (hpeers : similarUsers events uid = []) (strategy cid : String) :
    peerBonusApplies events uid strategy cid = false := by
  unfold peerBonusApplies peerLikedOrCompleted
  rw [hpeers]
  simp

/-- C6: the peer-affinity step is the only strategy-gated step, so for a
user with zero events (hence an empty peer set) the whole recommendation
response under strategy `hybrid` equals the response under
`content_based`, with the jitter draws held fixed. -/
theorem hybrid_eq_content_based_without_events (s : Store) (uid : String)
    (k : ℕ) (now : Int) (jitter : String → ℚ)
    (h : s.events.filter (fun e => e.user_id == uid) = []) :
    getRecommendations s uid k "hybrid" now jitter
      = getRecommendations s uid k "content_based" now jitter := by
  have hpeers : similarUsers s.events uid = [] :=
    similarUsers_eq_nil s.events uid h
  have hpb := peerBonusApplies_eq_false s.events uid hpeers
  have hsc : ∀ interests skill c,
      scoreContent uid interests skill s.events "hybrid" now jitter c
        = scoreContent uid interests skill s.events "content_based" now
            jitter c := by
    intro interests skill c
    simp [scoreContent, preJitterScore, preDecayScore, signalTags,
      reasonTags, hpb]
  unfold getRecommendations
  cases hf : findUser s.users uid with
  | none => simp
  | some user =>
    simp only []
    unfold rankedCandidates scoredCandidates
    rw [List.map_congr_left (fun c _ => hsc user.interests user.skill_level c)]

/-- C6 witness: on the zero-event fixture store the two strategies return
the same response. -/
theorem hybrid_eq_content_based_without_events_witness :
    getRecommendations wStore "u1" 10 "hybrid" 0 (fun _ => 0)
      = getRecommendations wStore "u1" 10 "content_based" 0 (fun _ => 0) :=
  hybrid_eq_content_based_without_events wStore "u1" 10 0 (fun _ => 0) rfl

end AppFull

namespace AppFull

/-- C1: with non-negative popularity scores and non-negative jitter draws
(as produced by `random.uniform(0, 0.1)`), every recommendation the
engine returns — and every `recommendation_logs` row it writes for the
served list — carries a score in the closed interval `[0, 1]`: the clamp
`min(score, 1.0)` bounds it above and no contribution is negative. -/
theorem served_scores_in_unit_interval (s : Store) (uid : String) (k : ℕ)
    (strategy : String) (now : Int) (jitter : String → ℚ)
    (logIds : ℕ → String) (recs : List ScoredRec)
    (hpop : ∀ c ∈ s.contents, 0 ≤ c.popularity_score)
    (hj : ∀ cid, 0 ≤ jitter cid ∧ jitter cid < 1/10)
    (hok : getRecommendations s uid k strategy now jitter = .ok recs) :
    (∀ r ∈ recs, 0 ≤ r.score ∧ r.score ≤ 1)
    ∧ ∀ entry ∈ logEntriesFor uid logIds recs,
        0 ≤ entry.score ∧ entry.score ≤ 1 := by
  have hmain : ∀ r ∈ recs, 0 ≤ r.score ∧ r.score ≤ 1 := by
    unfold getRecommendations at hok
    cases hf : findUser s.users uid with
    | none =>
      rw [hf] at hok
      simp at hok
    | some user =>
      rw [hf] at hok
      simp only [Except.ok.injEq] at hok
      subst hok
      intro r hr
      have hr2 := List.mem_of_mem_take hr
      rw [rankedCandidates, List.mem_mergeSort] at hr2
      obtain ⟨c, hc, -, rfl⟩ := mem_scoredCandidates s uid user.interests
        user.skill_level strategy now jitter r hr2
      exact scoreContent_score_bounds uid user.interests user.skill_level
        s.events strategy now jitter c (hpop c hc) (hj c.content_id).1
  refine ⟨hmain, ?_⟩
  intro entry hentry
  unfold logEntriesFor at hentry
  obtain ⟨p, hp, rfl⟩ := List.mem_map.mp hentry
  exact hmain p.2 (List.getElem?_mem (List.mem_enum_iff_getElem?.mp hp))

unseal List.merge List.mergeSort in
/-- C1 witness: the fixture store serves one recommendation, whose score
(and logged score) the theorem bounds. -/
theorem served_scores_in_unit_interval_witness :
    (∀ r ∈ [wRec], 0 ≤ r.score ∧ r.score ≤ 1)
    ∧ ∀ entry ∈ logEntriesFor "u1" (fun _ => "log1") [wRec],
        0 ≤ entry.score ∧ entry.score ≤ 1 :=
  served_scores_in_unit_interval wStore "u1" 10 "hybrid" 0 (fun _ => 0)
    (fun _ => "log1") [wRec]
    (by
      intro c hc
      simp only [wStore, List.mem_singleton] at hc
      subst hc
      norm_num [wContent])
    (fun _ => ⟨le_refl 0, by norm_num⟩)
    (by rfl)

/-- The sort comparison is transitive. -/
theorem scoreDesc_trans : ∀ a b c : ScoredRec,
    scoreDesc a b = true → scoreDesc b c = true → scoreDesc a c = true := by
  intro a b c h1 h2
  simp only [scoreDesc, decide_eq_true_eq] at h1 h2 ⊢
  linarith

/-- The sort comparison is total. -/
theorem scoreDesc_total : ∀ a b : ScoredRec,
    (scoreDesc a b || scoreDesc b a) = true := by
  intro a b
  simp only [scoreDesc, Bool.or_eq_true, decide_eq_true_eq]
  exact le_total b.score a.score

/-- C5: a successful recommendation response (for any requested
`1 ≤ k ≤ 50`) is sorted descending by score, holds no content the user
has completed, has length exactly `min(k, eligible_candidate_count)` —
so a user who completed the whole catalog gets the empty list — and the
sort is stable: any two scored candidates already in weakly descending
order in the enumeration (in particular, any tie) keep their relative
order in the ranked list. -/
theorem ranked_output_contract (s : Store) (uid : String) (k : ℕ)
    (strategy : String) (now : Int) (jitter : String → ℚ)
    (recs : List ScoredRec) (hk1 : 1 ≤ k) (hk2 : k ≤ 50)
    (hok : getRecommendations s uid k strategy now jitter = .ok recs) :
    recs.Pairwise (fun a b => b.score ≤ a.score)
    ∧ (∀ r ∈ recs, userCompleted s.events uid r.content_id = false)
    ∧ recs.length = min k (eligibleContents s uid).length
    ∧ (eligibleContents s uid = [] → recs = [])
    ∧ (∀ interests skill a b,
        b.score ≤ a.score →
        List.Sublist [a, b] (scoredCandidates s uid interests skill
          strategy now jitter) →
        List.Sublist [a, b] (rankedCandidates s uid interests skill
          strategy now jitter)) := by
  have hstable : ∀ (interests : List String) (skill : String)
      (a b : ScoredRec), b.score ≤ a.score →
      List.Sublist [a, b] (scoredCandidates s uid interests skill strategy
        now jitter) →
      List.Sublist [a, b] (rankedCandidates s uid interests skill strategy
        now jitter) := by
    intro interests skill a b hab hsub
    unfold rankedCandidates
    exact List.pair_sublist_mergeSort scoreDesc_trans scoreDesc_total
      (by simp only [scoreDesc, decide_eq_true_eq]; exact hab) hsub
  unfold getRecommendations at hok
  cases hf : findUser s.users uid with
  | none =>
    rw [hf] at hok
    simp at hok
  | some user =>
    rw [hf] at hok
    simp only [Except.ok.injEq] at hok
    subst hok
    refine ⟨?_, ?_, ?_, ?_, hstable⟩
    · have hs : (List.mergeSort (scoredCandidates s uid user.interests
          user.skill_level strategy now jitter) scoreDesc).Pairwise
          (fun a b => scoreDesc a b = true) :=
        List.sorted_mergeSort scoreDesc_trans scoreDesc_total _
      unfold rankedCandidates
      exact (List.Pairwise.sublist (List.take_sublist _ _) hs).imp
        (fun h => by simpa [scoreDesc, decide_eq_true_eq] using h)
    · intro r hr
      have hr2 := List.mem_of_mem_take hr
      rw [rankedCandidates, List.mem_mergeSort] at hr2
      obtain ⟨c, -, hcf, rfl⟩ := mem_scoredCandidates s uid user.interests
        user.skill_level strategy now jitter r hr2
      exact hcf
    · rw [List.length_take, rankedCandidates, List.length_mergeSort,
        scoredCandidates, List.length_map]
    · intro he
      rw [rankedCandidates, scoredCandidates, he]
      simp

unseal List.merge List.mergeSort in
/-- C5 witness: the fixture store (one eligible content item) serves the
singleton ranked list. -/
theorem ranked_output_contract_witness :
    [wRec].Pairwise (fun a b => b.score ≤ a.score)
    ∧ (∀ r ∈ [wRec], userCompleted wStore.events "u1" r.content_id = false)
    ∧ [wRec].length = min 10 (eligibleContents wStore "u1").length
    ∧ (eligibleContents wStore "u1" = [] → [wRec] = [])
    ∧ (∀ interests skill a b,
        b.score ≤ a.score →
        List.Sublist [a, b] (scoredCandidates wStore "u1" interests skill
          "hybrid" 0 (fun _ => 0)) →
        List.Sublist [a, b] (rankedCandidates wStore "u1" interests skill
          "hybrid" 0 (fun _ => 0))) :=
  ranked_output_contract wStore "u1" 10 "hybrid" 0 (fun _ => 0) [wRec]
    (by norm_num) (by norm_num) (by rfl)

end AppFull

namespace AppFull

/-- On a request whose foreign keys both resolve, `log_event` appends
exactly the new event row, touches `last_active`, recomputes the touched
content's popularity from the post-insert events table, and returns the
event id. -/
theorem logEvent_found (s : Store) (ev : EventCreate) (eid : String)
    (ts : Int) (hu : (findUser s.users ev.user_id).isNone = false)
    (hc : (findContent s.contents ev.content_id).isNone = false) :
    logEvent s ev eid ts =
      ({ users := touchLastActive s.users ev.user_id ts
         contents := recomputePopularity s.contents
           (s.events ++ [{ event_id := eid
                           user_id := ev.user_id
                           content_id := ev.content_id
                           event_type := ev.event_type
                           value := ev.value
                           session_id := ev.session_id
                           timestamp := ts }]) ev.content_id
         events := s.events ++ [{ event_id := eid
                                  user_id := ev.user_id
                                  content_id := ev.content_id
                                  event_type := ev.event_type
                                  value := ev.value
                                  session_id := ev.session_id
                                  timestamp := ts }] },
       .ok eid) := by
  unfold logEvent
  rw [if_neg (by simp [hu]), if_neg (by simp [hc])]

/-- C7: event ingestion fails with NotFound exactly when the referenced
user id or content id is absent; on failure the store is returned
unchanged (no event row, no `last_active` update, no popularity
recompute), and on success exactly one event row is appended. -/
theorem log_event_not_found_contract (s : Store) (ev : EventCreate)
    (eid : String) (ts : Int) :
    ((∃ msg, (logEvent s ev eid ts).2 = .error msg)
      ↔ (findUser s.users ev.user_id = none
          ∨ findContent s.contents ev.content_id = none))
    ∧ ((findUser s.users ev.user_id = none
        ∨ findContent s.contents ev.content_id = none) →
        (logEvent s ev eid ts).1 = s)
    ∧ ((findUser s.users ev.user_id ≠ none
        ∧ findContent s.contents ev.content_id ≠ none) →
        (logEvent s ev eid ts).1.events
          = s.events ++ [{ event_id := eid
                           user_id := ev.user_id
                           content_id := ev.content_id
                           event_type := ev.event_type
                           value := ev.value
                           session_id := ev.session_id
                           timestamp := ts }]
        ∧ (logEvent s ev eid ts).2 = .ok eid) := by
  unfold logEvent
  by_cases hu : findUser s.users ev.user_id = none
  · rw [if_pos (by simp [hu])]
    refine ⟨⟨fun _ => Or.inl hu, fun _ => ⟨"User not found", rfl⟩⟩,
      fun _ => rfl, fun h => absurd hu h.1⟩
  · rw [if_neg (by simp [Option.isNone_iff_eq_none, hu])]
    by_cases hc : findContent s.contents ev.content_id = none
    · rw [if_pos (by simp [hc])]
      refine ⟨⟨fun _ => Or.inr hc, fun _ => ⟨"Content not found", rfl⟩⟩,
        fun _ => rfl, fun h => absurd hc h.2⟩
    · rw [if_neg (by simp [Option.isNone_iff_eq_none, hc])]
      refine ⟨⟨?_, ?_⟩, ?_, fun _ => ⟨rfl, rfl⟩⟩
      · rintro ⟨msg, hmsg⟩
        cases hmsg
      · rintro (h | h)
        · exact absurd h hu
        · exact absurd h hc
      · rintro (h | h)
        · exact absurd h hu
        · exact absurd h hc

/-- C7 witness: ingesting an event for a missing user id leaves the
fixture store unchanged and reports an error. -/
theorem log_event_not_found_contract_witness :
    (∃ msg, (logEvent wStore wBadEvent "e1" 0).2 = .error msg)
    ∧ (logEvent wStore wBadEvent "e1" 0).1 = wStore :=
  ⟨(log_event_not_found_contract wStore wBadEvent "e1" 0).1.mpr
      (Or.inl (by decide)),
    (log_event_not_found_contract wStore wBadEvent "e1" 0).2.1
      (Or.inl (by decide))⟩

end AppFull

namespace AppFull

/-- Looking a content id up after the popularity recompute gives the
original row, with the popularity field rewritten when (and only when)
the row is the recomputed one. -/
theorem findContent_recompute (cs : List Content) (events : List Event)
    (cid x : String) :
    findContent (recomputePopularity cs events cid) x
      = (findContent cs x).map (fun c =>
          if c.content_id == cid
          then { c with popularity_score :=
                  (eventCount events cid : ℚ) * (1/100) }
          else c) := by
  unfold findContent recomputePopularity
  rw [List.find?_map]
  have hp : (fun c : Content =>
      (if c.content_id == cid
       then { c with popularity_score :=
               (eventCount events cid : ℚ) * (1/100) }
       else c).content_id == x)
      = (fun c : Content => c.content_id == x) := by
    funext c
    by_cases h : c.content_id == cid <;> simp [h]
  simp only [Function.comp_def, hp]

/-- Appending one event bumps the count of its content id by one and
leaves every other count unchanged. -/
theorem eventCount_append (events : List Event) (e : Event) (cid : String) :
    eventCount (events ++ [e]) cid
      = eventCount events cid + (if e.content_id == cid then 1 else 0) := by
  unfold eventCount
  rw [List.filter_append, List.length_append]
  by_cases h : e.content_id == cid <;> simp [List.filter_cons, h]

/-- C10: after a successful event ingestion the touched content's
popularity equals `0.01 *` the total number of event rows referencing it;
any content whose popularity already satisfied that relation can only see
it grow (events are append-only); and the value is not capped at 1.0 —
past 100 events the popularity exceeds 1 and the scoring contribution
`popularity_score * 0.15` exceeds 0.15. -/
theorem popularity_tracks_event_count (s : Store) (ev : EventCreate)
    (eid : String) (ts : Int)
    (hu : (findUser s.users ev.user_id).isNone = false)
    (hc : (findContent s.contents ev.content_id).isNone = false) :
    popularityOf (logEvent s ev eid ts).1 ev.content_id
      = (eventCount (logEvent s ev eid ts).1.events ev.content_id : ℚ)
          * (1/100)
    ∧ (∀ cid, popularityOf s cid
          = (eventCount s.events cid : ℚ) * (1/100) →
        popularityOf s cid ≤ popularityOf (logEvent s ev eid ts).1 cid)
    ∧ (100 < eventCount (logEvent s ev eid ts).1.events ev.content_id →
        1 < popularityOf (logEvent s ev eid ts).1 ev.content_id
        ∧ (3/20 : ℚ)
            < popularityOf (logEvent s ev eid ts).1 ev.content_id
                * (3/20)) := by
  obtain ⟨c, hcc⟩ : ∃ c, findContent s.contents ev.content_id = some c := by
    cases h : findContent s.contents ev.content_id with
    | none => rw [h] at hc; cases hc
    | some c => exact ⟨c, rfl⟩
  have hcid : (c.content_id == ev.content_id) = true := by
    have h := hcc
    unfold findContent at h
    have h2 := List.find?_some h
    exact h2
  rw [logEvent_found s ev eid ts hu hc]
  have h1 : popularityOf
      { users := touchLastActive s.users ev.user_id ts
        contents := recomputePopularity s.contents
          (s.events ++ [{ event_id := eid
                          user_id := ev.user_id
                          content_id := ev.content_id
                          event_type := ev.event_type
                          value := ev.value
                          session_id := ev.session_id
                          timestamp := ts }]) ev.content_id
        events := s.events ++ [{ event_id := eid
                                 user_id := ev.user_id
                                 content_id := ev.content_id
                                 event_type := ev.event_type
                                 value := ev.value
                                 session_id := ev.session_id
                                 timestamp := ts }] } ev.content_id
      = (eventCount (s.events ++ [{ event_id := eid
                                    user_id := ev.user_id
                                    content_id := ev.content_id
                                    event_type := ev.event_type
                                    value := ev.value
                                    session_id := ev.session_id
                                    timestamp := ts }]) ev.content_id : ℚ)
          * (1/100) := by
    simp [popularityOf, findContent_recompute, hcc, eq_of_beq hcid]
  refine ⟨h1, ?_, ?_⟩
  · intro cid hinv
    cases hx : findContent s.contents cid with
    | none =>
      simp [popularityOf, findContent_recompute, hx]
    | some d =>
      have hdid : (d.content_id == cid) = true := by
        have h := hx
        unfold findContent at h
        have h2 := List.find?_some h
        exact h2
      have hd : d.popularity_score = (eventCount s.events cid : ℚ) * (1/100) := by
        simpa [popularityOf, hx] using hinv
      by_cases hsame : d.content_id = ev.content_id
      · have hceq : cid = ev.content_id := by
          rw [← eq_of_beq hdid]
          exact hsame
        subst hceq
        simp [popularityOf, findContent_recompute, hx, hsame, hd,
          eventCount_append]
      · simp [popularityOf, findContent_recompute, hx, hsame, hd]
  · intro h100
    rw [h1]
    have hn : (100 : ℚ)
        < ((eventCount (s.events ++ [{ event_id := eid
                                       user_id := ev.user_id
                                       content_id := ev.content_id
                                       event_type := ev.event_type
                                       value := ev.value
                                       session_id := ev.session_id
                                       timestamp := ts }]) ev.content_id : ℕ)
            : ℚ) := by
      exact_mod_cast h100
    constructor
    · linarith
    · nlinarith

unseal List.merge List.mergeSort in
/-- C10 witness: ingesting one event into the fixture store (no prior
events) sets the content's popularity to `1 * 0.01`. -/
theorem popularity_tracks_event_count_witness :
    popularityOf (logEvent wStore wGoodEvent "e1" 0).1 "c1"
      = (eventCount (logEvent wStore wGoodEvent "e1" 0).1.events "c1" : ℚ)
          * (1/100) :=
  (popularity_tracks_event_count wStore wGoodEvent "e1" 0 (by decide)
    (by decide)).1

end AppFull
